import Mathlib

/-!
# RTLSDR-Scanner map page: worker fetch, poll scheduler and render pipeline

A shallow embedding of `rtlsdr_scanner/res/get_gjson.js` (the background
worker) and of the scheduling and rendering functions of
`rtlsdr_scanner/res/gmaps.js`.

Conventions of the embedding.

* Coordinates are carried around and never computed with, so a number is an
  `Int` here; a coordinate array `[c0, c1]` is the pair `(c0, c1)`.
* The global variables of `gmaps.js` and the browser objects they talk to
  (timers, the worker, the Google map, the Ext widgets) are the fields of one
  `State` record; every JavaScript function is a function on `State`.
* An uncaught JavaScript exception is `Except.error`.
-/

namespace Scanner

/-! ## The worker: `get_gjson.js` -/

/-- The uncaught exceptions the worker code can raise. -/
inductive JsError where
  /-- Thrown by `JSON.parse` on text that is not JSON. -/
  | syntaxError
  /-- Thrown on reading a property of `undefined` or `null`. -/
  | typeError
  deriving DecidableEq, Repr

/-- The value of `properties.isLast`, as far as its truthiness is concerned.
`undefined` is the value read when the object has no `isLast` member. -/
inductive JsValue where
  | undefined
  | null
  | bool (b : Bool)
  | number (n : Int)
  | string (s : String)
  | object
  deriving DecidableEq, Repr

/-- JavaScript truthiness (`ToBoolean`). -/
def JsValue.truthy : JsValue → Bool
  | .undefined => false
  | .null => false
  | .bool b => b
  | .number n => n != 0
  | .string s => s != ""
  | .object => true

/-- A coordinate array `[c0, c1]` of a geometry. -/
abbrev Coords := Int × Int

/-- The `properties` member of a feature. -/
inductive Properties where
  /-- The feature has no `properties` member: `typeof properties` is `"undefined"`. -/
  | absent
  /-- The member is JSON `null`: `typeof properties` is `"object"`. -/
  | null
  /-- The member is an object; `isLast` is what `properties.isLast` reads. -/
  | object (isLast : JsValue)
  deriving DecidableEq, Repr

/-- One element of the `features` array. `geometry` is `none` when the feature
has no geometry (absent or JSON `null`), so that `geometry.coordinates` throws;
otherwise it holds the coordinates of the geometry. -/
structure Feature where
  geometry : Option Coords
  properties : Properties
  deriving DecidableEq, Repr

/-- What `JSON.parse(results).features` evaluates to. -/
inductive Parsed where
  /-- The text is not JSON: `JSON.parse` throws. -/
  | malformed
  /-- The text is JSON with no `features` member: `.features` is `undefined`. -/
  | noFeatures
  /-- The text is a feature collection. -/
  | collection (features : List Feature)
  deriving DecidableEq, Repr

/-- The `data` of a message posted by the worker: the empty string, or the
two-element array `[points, location]`. -/
inductive WorkerData where
  | empty
  | result (points : List Coords) (location : Option Coords)
  deriving DecidableEq, Repr

/-- The `length` property of a message's data. -/
def WorkerData.length : WorkerData → Nat
  | .empty => 0
  | .result _ _ => 2

/-- The `for` loop of `loadData`, from the current element on, with the
variables `points` and `location` as accumulators. -/
def loadLoop : List Feature → List Coords → Option Coords →
    Except JsError (List Coords × Option Coords)
  | [], points, location => .ok (points, location)
  | f :: rest, points, location =>
    match f.geometry with
    | none => .error .typeError
    | some coords =>
      match f.properties with
      | .absent => loadLoop rest (points ++ [coords]) location
      | .null => .error .typeError
      | .object isLast =>
        if isLast.truthy then loadLoop rest points (some coords)
        else loadLoop rest (points ++ [coords]) location

/-- The function `loadData`: the message it posts, or the exception that
escapes it before `postMessage` is reached. -/
def loadData : Parsed → Except JsError WorkerData
  | .malformed => .error .syntaxError
  | .noFeatures => .error .typeError
  | .collection features =>
    match loadLoop features [] none with
    | .error e => .error e
    | .ok (points, location) => .ok (.result points location)

/-- How the request of `getLocations` ends. -/
inductive XhrOutcome where
  /-- A response arrived; `body` is what parsing its text gives. -/
  | response (body : Parsed)
  | timeout
  | error
  deriving DecidableEq, Repr

/-- The messages a handler run leaves behind: the posted one, or none when an
exception escaped the handler. -/
def posted : Except JsError WorkerData → List WorkerData
  | .ok m => [m]
  | .error _ => []

/-- The function `getLocations`: the messages the worker posts for one request.
The request reaches `DONE` on every outcome, so `onreadystatechange` always runs
`loadData`; on a timeout or transport error the response text is empty, which
`JSON.parse` rejects, and then `ontimeout` or `onerror` posts the empty message. -/
def getLocations : XhrOutcome → List WorkerData
  | .response body => posted (loadData body)
  | .timeout => posted (loadData .malformed) ++ [.empty]
  | .error => posted (loadData .malformed) ++ [.empty]

/-- A feature is marked when the test
`typeof properties != "undefined" && properties.isLast` can succeed on it. -/
def Feature.isMarked (f : Feature) : Bool :=
  match f.properties with
  | .object isLast => isLast.truthy
  | _ => false

/-- The features `loadData` reads without raising: a geometry is present and
`properties` is absent or an object. -/
def Feature.wellFormed (f : Feature) : Bool :=
  f.geometry.isSome && f.properties != .null

/-! ## The page: `gmaps.js` -/

/-- A `google.maps.LatLng`. -/
structure LatLng where
  lat : Int
  lng : Int
  deriving DecidableEq, Repr

/-- An `OpenLayers.LonLat`. -/
structure LonLat where
  lon : Int
  lat : Int
  deriving DecidableEq, Repr

/-- An `OpenLayers.Bounds`, known by the coordinates it has been extended by
since `new OpenLayers.Bounds()`, in call order. -/
structure Bounds where
  extended : List LonLat
  deriving DecidableEq, Repr

/-- The method `bounds.extend`. -/
def Bounds.extend (b : Bounds) (p : LonLat) : Bounds :=
  { extended := b.extended ++ [p] }

/-- The Google map objects markers and the heatmap attach to:
`layers[i].mapObject`. -/
inductive GMap where
  | layerMap (layer : Nat)
  deriving DecidableEq, Repr

/-- A `google.maps.Marker`. `map` is `none` while the marker is on no map
(never attached, or `setMap(null)`). -/
structure Marker where
  position : LatLng
  icon : Option String
  map : Option GMap
  deriving DecidableEq, Repr

/-- The global `overlay`. -/
structure Overlay where
  last : Bool
  locations : Bool
  heatmap : Bool
  deriving DecidableEq, Repr

/-- The global `follow`. -/
structure Follow where
  last : Bool
  locations : Bool
  deriving DecidableEq, Repr

/-- A timeout created by `setTimeout(workerStart, delay)` that has neither
fired nor been cleared. -/
structure Timer where
  id : Nat
  delay : Nat
  deriving DecidableEq, Repr

/-- The globals of `gmaps.js` and the state of the browser objects its
functions act on. -/
structure State where
  /-- The global `points`. -/
  points : List LatLng
  /-- The global `lastPoint`; `none` is `undefined`. -/
  lastPoint : Option LatLng
  /-- The global `markersLocation`. -/
  markersLocation : List Marker
  /-- The global `markersLast`. -/
  markersLast : List Marker
  /-- The global `refresh`, in milliseconds. -/
  refresh : Nat
  /-- The global `refreshTimeout`: the id last returned by `setTimeout`. -/
  refreshTimeout : Option Nat
  /-- The global `isRefreshing`. -/
  isRefreshing : Bool
  overlay : Overlay
  follow : Follow
  /-- Marker objects no array refers to any more (emptied out by
  `clearMarkers`); one with a map would still be drawn. -/
  dropped : List Marker
  /-- The data of the heatmap layer. -/
  heatmapData : List LatLng
  /-- The map the heatmap layer is attached to. -/
  heatmapMap : Option GMap
  /-- The `radius` of the heatmap layer. -/
  heatmapRadius : Nat
  /-- The extent last passed to `map.zoomToExtent`. -/
  viewport : Option Bounds
  /-- The number of calls of `map.zoomToExtent` so far. -/
  zoomCalls : Nat
  /-- The number of runs of `updateLayers` so far. -/
  renders : Nat
  /-- The value of the `dispLocs` field. -/
  dispLocs : Option Nat
  /-- The coordinates the `dispCoords` field shows; `none` is the empty text. -/
  dispCoords : Option LatLng
  /-- The pending timeouts of the page. -/
  timers : List Timer
  /-- The id the next `setTimeout` returns. -/
  nextTimer : Nat
  /-- The number of calls of `workerStart` so far. -/
  requested : Nat
  /-- The requests posted to the worker whose message has not arrived. -/
  inFlight : Nat
  /-- Whether the `loading` image is shown. -/
  loadingVisible : Bool
  playDisabled : Bool
  pauseDisabled : Bool
  heatRadiusDisabled : Bool
  deriving DecidableEq, Repr

/-- The base map `layers[0].mapObject`. -/
def baseMap : GMap := .layerMap 0

/-- The function `latLngToLonLat`. The projection from `projGps` to `projSm`
is the library's and is not computed: a projected coordinate is denoted by the
GPS coordinate it comes from. -/
def latLngToLonLat (latLng : LatLng) : LonLat :=
  { lon := latLng.lng, lat := latLng.lat }

/-- The function `setMarkers`: `setMap(map)` on every marker of the array. -/
def setMarkers (markers : List Marker) (map : Option GMap) : List Marker :=
  markers.map fun m => { m with map := map }

/-- The function `clearMarkers`: the array after `markers.length = 0`, and the
marker objects it held, as `setMarkers(markers, null)` left them. -/
def clearMarkers (markers : List Marker) : List Marker × List Marker :=
  ([], setMarkers markers none)

/-- The method `map.zoomToExtent`. -/
def zoomToExtent (s : State) (bounds : Bounds) : State :=
  { s with viewport := some bounds, zoomCalls := s.zoomCalls + 1 }

/-- The function `showLayers`. -/
def showLayers (s : State) : State :=
  let locationsMap := if s.overlay.locations then some baseMap else none
  let lastMap := if s.overlay.last then some baseMap else none
  { s with
    markersLocation := setMarkers s.markersLocation locationsMap
    markersLast := setMarkers s.markersLast lastMap
    heatmapMap := if s.overlay.heatmap then some baseMap else none }

/-- The function `zoom`. The pair threaded through is `(bounds, boundsUpdated)`. -/
def zoom (s : State) : State :=
  let start : Bounds × Bool := ({ extended := [] }, false)
  let afterLocations :=
    if s.follow.locations then
      s.points.foldl (fun acc latLng => (acc.1.extend (latLngToLonLat latLng), true)) start
    else start
  let afterLast :=
    if s.follow.last then
      match s.lastPoint with
      | some lastPoint => (afterLocations.1.extend (latLngToLonLat lastPoint), true)
      | none => afterLocations
    else afterLocations
  if afterLast.2 then zoomToExtent s afterLast.1 else s

/-- The function `updateLayers`. -/
def updateLayers (s : State) : State :=
  let clearedLocation := clearMarkers s.markersLocation
  let markersLocation := s.points.foldl
    (fun markers latLng => markers ++ [{ position := latLng, icon := none, map := none }])
    clearedLocation.1
  let clearedLast := clearMarkers s.markersLast
  let markersLast :=
    match s.lastPoint with
    | some lastPoint =>
      clearedLast.1 ++ [{ position := lastPoint, icon := some "/crosshair.png", map := none }]
    | none => clearedLast.1
  zoom (showLayers
    { s with
      markersLocation := markersLocation
      markersLast := markersLast
      dropped := s.dropped ++ clearedLocation.2 ++ clearedLast.2
      heatmapData := s.points
      renders := s.renders + 1 })

/-- The function `updateInfo`; the text formatting of `formatCoords` is left out. -/
def updateInfo (s : State) : State :=
  { s with dispLocs := some s.points.length, dispCoords := s.lastPoint }

/-- The ids of the tree nodes whose `checkchange` reaches `checkOverlay`. -/
inductive OverlayId where
  | overlayLast
  | overlayLoc
  | overlayHeat
  /-- Any other node of the layer tree. -/
  | other
  deriving DecidableEq, Repr

/-- The function `checkOverlay`. -/
def checkOverlay (id : OverlayId) (checked : Bool) (s : State) : State :=
  let s :=
    match id with
    | .overlayLast => { s with overlay := { s.overlay with last := checked } }
    | .overlayLoc => { s with overlay := { s.overlay with locations := checked } }
    | .overlayHeat =>
      { s with overlay := { s.overlay with heatmap := checked }, heatRadiusDisabled := !checked }
    | .other => s
  showLayers s

/-- The ids of the checkboxes whose `change` reaches `checkFollow`. -/
inductive FollowId where
  | followLast
  | followLocs
  deriving DecidableEq, Repr

/-- The function `checkFollow`. -/
def checkFollow (id : FollowId) (checked : Bool) (s : State) : State :=
  let s :=
    match id with
    | .followLast => { s with follow := { s.follow with last := checked } }
    | .followLocs => { s with follow := { s.follow with locations := checked } }
  zoom s

/-- The function `slideRadius`. -/
def slideRadius (value : Nat) (s : State) : State :=
  { s with heatmapRadius := value }

/-- The function `workerStart`. -/
def workerStart (s : State) : State :=
  { s with loadingVisible := true, requested := s.requested + 1, inFlight := s.inFlight + 1 }

/-- The call `clearTimeout(refreshTimeout)`: it removes the pending timeout
with the stored id, if there is one. -/
def clearTimeout (s : State) : State :=
  match s.refreshTimeout with
  | none => s
  | some id => { s with timers := s.timers.filter fun t => t.id != id }

/-- The function `workerSchedule`. -/
def workerSchedule (s : State) : State :=
  let s := clearTimeout { s with loadingVisible := false }
  if s.isRefreshing then
    { s with
      timers := s.timers ++ [{ id := s.nextTimer, delay := s.refresh }]
      refreshTimeout := some s.nextTimer
      nextTimer := s.nextTimer + 1 }
  else s

/-- The function `slideRefresh`. -/
def slideRefresh (value : Nat) (s : State) : State :=
  workerSchedule { s with refresh := value * 1000 }

/-- The ids of the buttons whose `click` reaches `buttonPlay`. -/
inductive ButtonId where
  | play
  | pause
  deriving DecidableEq, Repr

/-- The function `buttonPlay`. -/
def buttonPlay (id : ButtonId) (s : State) : State :=
  let s :=
    match id with
    | .play => { s with isRefreshing := true, playDisabled := true, pauseDisabled := false }
    | .pause => { s with isRefreshing := false, pauseDisabled := true, playDisabled := false }
  workerSchedule s

/-- The function `workerMessage`. -/
def workerMessage (data : WorkerData) (s : State) : State :=
  let s :=
    if data.length == 2 then
      match data with
      | .result dataPoints dataLast =>
        let points := dataPoints.foldl
          (fun points coords => points ++ [{ lat := coords.1, lng := coords.2 }]) []
        let lastPoint : Option LatLng :=
          match dataLast with
          | some coords => some { lat := coords.1, lng := coords.2 }
          | none => none
        updateInfo (updateLayers { s with points := points, lastPoint := lastPoint })
      | .empty => s
    else s
  workerSchedule s

/-- The globals as the script initialises them and the widgets as `launch`
creates them, before `launch` calls `workerStart`. -/
def initial : State where
  points := []
  lastPoint := none
  markersLocation := []
  markersLast := []
  refresh := 5000
  refreshTimeout := none
  isRefreshing := true
  overlay := { last := true, locations := true, heatmap := true }
  follow := { last := true, locations := true }
  dropped := []
  heatmapData := []
  heatmapMap := none
  heatmapRadius := 30
  viewport := none
  zoomCalls := 0
  renders := 0
  dispLocs := none
  dispCoords := none
  timers := []
  nextTimer := 0
  requested := 0
  inFlight := 0
  loadingVisible := true
  playDisabled := true
  pauseDisabled := false
  heatRadiusDisabled := false

/-- The page once `launch` has run: it ends with `workerStart()`. -/
def startup : State := workerStart initial

/-- What can happen to the page after startup. -/
inductive Event where
  | checkOverlay (id : OverlayId) (checked : Bool)
  | checkFollow (id : FollowId) (checked : Bool)
  | slideRadius (value : Nat)
  | slideRefresh (value : Nat)
  | click (id : ButtonId)
  /-- The timeout with this id comes due. -/
  | timer (id : Nat)
  /-- A message of the worker arrives. -/
  | message (data : WorkerData)
  deriving DecidableEq, Repr

/-- A timeout coming due: if it is still pending it leaves the pending list
and its callback `workerStart` runs. -/
def fireTimer (id : Nat) (s : State) : State :=
  if s.timers.any (fun t => t.id == id) then
    workerStart { s with timers := s.timers.filter fun t => t.id != id }
  else s

/-- The page's reaction to one event. -/
def step (s : State) : Event → State
  | .checkOverlay id checked => checkOverlay id checked s
  | .checkFollow id checked => checkFollow id checked s
  | .slideRadius value => slideRadius value s
  | .slideRefresh value => slideRefresh value s
  | .click id => buttonPlay id s
  | .timer id => fireTimer id s
  | .message data => workerMessage data { s with inFlight := s.inFlight - 1 }

/-- The page's reaction to a sequence of events. -/
def run (s : State) (events : List Event) : State :=
  events.foldl step s

/-! ## Predicates used to state the properties of the page -/

/-- The part of the state the poll scheduler reads and writes. -/
structure Schedule where
  timers : List Timer
  nextTimer : Nat
  refreshTimeout : Option Nat
  isRefreshing : Bool
  refresh : Nat
  requested : Nat
  inFlight : Nat
  loadingVisible : Bool
  deriving DecidableEq, Repr

/-- The scheduler part of a state. -/
def State.schedule (s : State) : Schedule :=
  { timers := s.timers
    nextTimer := s.nextTimer
    refreshTimeout := s.refreshTimeout
    isRefreshing := s.isRefreshing
    refresh := s.refresh
    requested := s.requested
    inFlight := s.inFlight
    loadingVisible := s.loadingVisible }

/-- The timer invariant of the scheduler: every pending timeout is the one
whose id `refreshTimeout` holds, ids are handed out in increasing order, at
most one timeout is pending, and one is pending only while `isRefreshing`. -/
def TimerInv (s : State) : Prop :=
  (∀ t ∈ s.timers, s.refreshTimeout = some t.id)
  ∧ (∀ t ∈ s.timers, t.id < s.nextTimer)
  ∧ s.timers.length ≤ 1
  ∧ (s.timers ≠ [] → s.isRefreshing = true)

/-- An event that keeps the poll chain: it does not arm the timer while a
request is in flight. Only a refresh-slider change made while running and a
click on play can do that. -/
def Event.keepsChain (s : State) : Event → Bool
  | .slideRefresh _ => s.inFlight == 0 || !s.isRefreshing
  | .click .play => s.inFlight == 0
  | _ => true

/-- Every event of the sequence keeps the poll chain in the state it occurs in. -/
def keepsChain : State → List Event → Bool
  | _, [] => true
  | s, e :: rest => e.keepsChain s && keepsChain (step s e) rest

/-- The event is not a click on play. -/
def Event.notPlay : Event → Bool
  | .click .play => false
  | _ => true

/-- The followed set, in the spec's words: all points when `follow.locations`
is set, together with the last point when `follow.last` is set and the last
point is present. -/
def followed (s : State) : List LatLng :=
  (if s.follow.locations then s.points else [])
    ++ (if s.follow.last then s.lastPoint.toList else [])

/-- What the rendering leaves to be seen: the two marker arrays, the marker
objects drawn on a map (in an array or not), the heatmap and the extent last
zoomed to. -/
structure Rendered where
  markersLocation : List Marker
  markersLast : List Marker
  drawn : List Marker
  heatmapData : List LatLng
  heatmapMap : Option GMap
  viewport : Option Bounds
  deriving DecidableEq, Repr

/-- The rendering of a state. -/
def State.rendered (s : State) : Rendered :=
  { markersLocation := s.markersLocation
    markersLast := s.markersLast
    drawn := (s.markersLocation ++ s.markersLast ++ s.dropped).filter fun m => m.map.isSome
    heatmapData := s.heatmapData
    heatmapMap := s.heatmapMap
    viewport := s.viewport }

/-! ## The worker: what `loadData` posts -/

/-- The loop of `loadData` on well-formed features: it finishes, appends the
coordinates of the unmarked features in order, and leaves in `location` the
coordinates of the last marked feature, or the old value when none is marked. -/
theorem loadLoop_wellFormed (fs : List Feature) (h : ∀ f ∈ fs, f.wellFormed = true) :
    ∀ (points : List Coords) (location : Option Coords),
      ∃ points1 location1, loadLoop fs points location = .ok (points ++ points1, location1)
        ∧ points1.map some = (fs.filter fun f => !f.isMarked).map (·.geometry)
        ∧ location1 = match (fs.filter fun f => f.isMarked).getLast? with
            | some f => f.geometry
            | none => location := by
  induction fs with
  | nil => intro points location; exact ⟨[], location, by simp [loadLoop], by simp, by simp⟩
  | cons f rest ih =>
    intro points location
    have hf : f.wellFormed = true := h f (List.mem_cons_self _ _)
    have ih := ih (fun g hg => h g (List.mem_cons_of_mem _ hg))
    obtain ⟨geometry, properties⟩ := f
    cases geometry with
    | none => simp [Feature.wellFormed] at hf
    | some coords =>
      cases properties with
      | null => simp [Feature.wellFormed] at hf
      | absent =>
        obtain ⟨p1, l1, h1, h2, h3⟩ := ih (points ++ [coords]) location
        refine ⟨coords :: p1, l1, ?_, ?_, ?_⟩
        · simp [loadLoop, h1]
        · simp [Feature.isMarked, h2]
        · simp [Feature.isMarked, h3]
      | object isLast =>
        by_cases ht : isLast.truthy = true
        · obtain ⟨p1, l1, h1, h2, h3⟩ := ih points (some coords)
          refine ⟨p1, l1, ?_, ?_, ?_⟩
          · simp [loadLoop, ht, h1]
          · simp [Feature.isMarked, ht, h2]
          · have hfil : (List.filter (fun f => f.isMarked)
                (({ geometry := some coords, properties := .object isLast } : Feature) :: rest))
                = { geometry := some coords, properties := .object isLast }
                  :: List.filter (fun f => f.isMarked) rest := by
              simp [Feature.isMarked, ht]
            rw [h3, hfil, List.getLast?_cons]
            cases (List.filter (fun f => f.isMarked) rest).getLast? <;> rfl
        · simp only [Bool.not_eq_true] at ht
          obtain ⟨p1, l1, h1, h2, h3⟩ := ih (points ++ [coords]) location
          refine ⟨coords :: p1, l1, ?_, ?_, ?_⟩
          · simp [loadLoop, ht, h1]
          · simp [Feature.isMarked, ht, h2]
          · simp [Feature.isMarked, ht, h3]

/-- C1: on a feature collection whose features all have geometry coordinates
and properties that are absent or an object, `loadData` posts a message whose
points are exactly the coordinates of the features not marked `isLast`, in input
order; when no feature is marked these are the coordinates of all features. -/
theorem loadData_points_are_unmarked (fs : List Feature)
    (h : ∀ f ∈ fs, f.wellFormed = true) :
    ∃ points location, loadData (.collection fs) = .ok (.result points location)
      ∧ points.map some = (fs.filter fun f => !f.isMarked).map (·.geometry)
      ∧ ((∀ f ∈ fs, f.isMarked = false) → points.map some = fs.map (·.geometry)) := by
  obtain ⟨p1, l1, h1, h2, -⟩ := loadLoop_wellFormed fs h [] none
  refine ⟨p1, l1, ?_, h2, ?_⟩
  · simp [loadData, h1]
  · intro hnone
    rw [h2, List.filter_eq_self.mpr]
    intro f hf
    simp [hnone f hf]

/-- Witness of C1: a collection with an unmarked, a marked, a falsy-marked and
a property-less feature. -/
theorem loadData_points_are_unmarked_witness :
    (∀ f ∈ ([⟨some (1, 2), .object (.bool false)⟩, ⟨some (3, 4), .object (.bool true)⟩,
        ⟨some (5, 6), .object .undefined⟩, ⟨some (7, 8), .absent⟩] : List Feature),
        f.wellFormed = true)
    ∧ ∃ points location,
      loadData (.collection [⟨some (1, 2), .object (.bool false)⟩,
        ⟨some (3, 4), .object (.bool true)⟩, ⟨some (5, 6), .object .undefined⟩,
        ⟨some (7, 8), .absent⟩]) = .ok (.result points location)
      ∧ points.map some
        = (([⟨some (1, 2), .object (.bool false)⟩, ⟨some (3, 4), .object (.bool true)⟩,
            ⟨some (5, 6), .object .undefined⟩, ⟨some (7, 8), .absent⟩] : List Feature).filter
            fun f => !f.isMarked).map (·.geometry)
      ∧ ((∀ f ∈ ([⟨some (1, 2), .object (.bool false)⟩, ⟨some (3, 4), .object (.bool true)⟩,
            ⟨some (5, 6), .object .undefined⟩, ⟨some (7, 8), .absent⟩] : List Feature),
            f.isMarked = false) →
          points.map some
            = ([⟨some (1, 2), .object (.bool false)⟩, ⟨some (3, 4), .object (.bool true)⟩,
              ⟨some (5, 6), .object .undefined⟩, ⟨some (7, 8), .absent⟩] :
                List Feature).map (·.geometry)) :=
  ⟨by decide, loadData_points_are_unmarked _ (by decide)⟩

/-- C2 as stated fails: a collection holding a feature whose `properties` is
`null` makes `loadData` throw before it posts, although a later feature is
marked; so it is not true of every feature collection that a message carrying
the last marked feature's coordinates is posted. -/
theorem loadData_null_properties_posts_nothing :
    loadData (.collection [⟨some (1, 2), .null⟩, ⟨some (3, 4), .object (.bool true)⟩])
      = .error .typeError
    ∧ ¬ ∀ fs : List Feature, ∃ points, loadData (.collection fs)
        = .ok (.result points (((fs.filter fun f => f.isMarked).getLast?).bind (·.geometry))) := by
  refine ⟨rfl, fun hall => ?_⟩
  obtain ⟨points, hp⟩ :=
    hall [⟨some (1, 2), .null⟩, ⟨some (3, 4), .object (.bool true)⟩]
  revert hp
  simp [loadData, loadLoop]

/-- C2, amended: on a feature collection whose features all have geometry
coordinates and properties that are absent or an object, the last point
`loadData` posts is the coordinates of the last marked feature in input order,
and is absent when no feature is marked. -/
theorem loadData_location_is_last_marked (fs : List Feature)
    (h : ∀ f ∈ fs, f.wellFormed = true) :
    ∃ points location, loadData (.collection fs) = .ok (.result points location)
      ∧ location = ((fs.filter fun f => f.isMarked).getLast?).bind (·.geometry)
      ∧ ((∀ f ∈ fs, f.isMarked = false) → location = none) := by
  obtain ⟨p1, l1, h1, -, h3⟩ := loadLoop_wellFormed fs h [] none
  have h3b : l1 = ((fs.filter fun f => f.isMarked).getLast?).bind (·.geometry) := by
    rw [h3]
    cases (List.filter (fun f => f.isMarked) fs).getLast? <;> rfl
  refine ⟨p1, l1, ?_, h3b, ?_⟩
  · simp [loadData, h1]
  · intro hnone
    have hnil : (fs.filter fun f => f.isMarked) = [] :=
      List.filter_eq_nil_iff.mpr fun f hf => by simp [hnone f hf]
    rw [h3b, hnil]
    rfl

/-- Witness of C2, amended: two marked features, the second one wins. -/
theorem loadData_location_is_last_marked_witness :
    (∀ f ∈ ([⟨some (1, 2), .object (.bool true)⟩, ⟨some (3, 4), .absent⟩,
        ⟨some (5, 6), .object (.number 1)⟩, ⟨some (7, 8), .object (.string "")⟩] :
          List Feature), f.wellFormed = true)
    ∧ ∃ points location,
      loadData (.collection [⟨some (1, 2), .object (.bool true)⟩, ⟨some (3, 4), .absent⟩,
        ⟨some (5, 6), .object (.number 1)⟩, ⟨some (7, 8), .object (.string "")⟩])
        = .ok (.result points location)
      ∧ location
        = ((([⟨some (1, 2), .object (.bool true)⟩, ⟨some (3, 4), .absent⟩,
            ⟨some (5, 6), .object (.number 1)⟩, ⟨some (7, 8), .object (.string "")⟩] :
              List Feature).filter fun f => f.isMarked).getLast?).bind (·.geometry)
      ∧ ((∀ f ∈ ([⟨some (1, 2), .object (.bool true)⟩, ⟨some (3, 4), .absent⟩,
            ⟨some (5, 6), .object (.number 1)⟩, ⟨some (7, 8), .object (.string "")⟩] :
              List Feature), f.isMarked = false) → location = none) :=
  ⟨by decide, loadData_location_is_last_marked _ (by decide)⟩

/-! ## The poll scheduler -/

/-- Running a sequence is running its first event, then the rest. -/
theorem run_cons (s : State) (e : Event) (rest : List Event) :
    run s (e :: rest) = run (step s e) rest := rfl

/-- Running a concatenation is running its parts in turn. -/
theorem run_append (s : State) (es1 es2 : List Event) :
    run s (es1 ++ es2) = run (run s es1) es2 := by
  simp [run, List.foldl_append]

/-- C3, the code at the failing inputs: for a response that is not JSON, or is
JSON without a `features` member, the exception escapes `loadData` and the
worker posts no message at all, while a timeout or transport error does post the
empty message. After startup one fetch is in flight and no timer is pending, and
timer events alone never change that: without a message of the worker the
scheduler is not re-armed and `workerStart` is not called again. -/
theorem getLocations_parse_failure_posts_nothing :
    getLocations (.response .malformed) = []
    ∧ getLocations (.response .noFeatures) = []
    ∧ getLocations .timeout = [.empty]
    ∧ getLocations .error = [.empty]
    ∧ startup.timers = []
    ∧ startup.inFlight = 1
    ∧ ∀ ids : List Nat, run startup (ids.map Event.timer) = startup := by
  refine ⟨rfl, rfl, rfl, rfl, rfl, rfl, fun ids => ?_⟩
  induction ids with
  | nil => rfl
  | cons id rest ih =>
    rw [List.map_cons, run_cons]
    exact ih

/-- `showLayers` leaves the scheduler alone. -/
theorem showLayers_schedule (s : State) : (showLayers s).schedule = s.schedule := rfl

/-- The loop of `zoom` over the points: the bounds are extended by every point
in order, and `boundsUpdated` is set as soon as there is a point. -/
theorem zoom_foldl (points : List LatLng) (b : Bounds) (u : Bool) :
    points.foldl (fun acc latLng => (acc.1.extend (latLngToLonLat latLng), true)) (b, u)
      = ({ extended := b.extended ++ points.map latLngToLonLat }, u || !points.isEmpty) := by
  induction points generalizing b u with
  | nil => simp
  | cons p rest ih =>
    simp only [List.foldl_cons]
    rw [ih]
    simp [Bounds.extend]

/-- `zoom` in closed form: nothing when the followed set is empty, one call of
`zoomToExtent` with the followed coordinates otherwise. -/
theorem zoom_eq (s : State) :
    zoom s = if followed s = [] then s
      else zoomToExtent s { extended := (followed s).map latLngToLonLat } := by
  unfold zoom followed
  simp only [zoom_foldl]
  cases s.follow.locations <;> cases s.follow.last <;> cases s.lastPoint <;>
    cases s.points <;> simp [Bounds.extend]

/-- `zoom` leaves the scheduler alone. -/
theorem zoom_schedule (s : State) : (zoom s).schedule = s.schedule := by
  rw [zoom_eq]
  split <;> rfl

/-- `updateLayers` leaves the scheduler alone. -/
theorem updateLayers_schedule (s : State) : (updateLayers s).schedule = s.schedule := by
  unfold updateLayers
  rw [zoom_schedule, showLayers_schedule]
  rfl

/-- `updateInfo` leaves the scheduler alone. -/
theorem updateInfo_schedule (s : State) : (updateInfo s).schedule = s.schedule := rfl

/-- `checkOverlay` leaves the scheduler alone. -/
theorem checkOverlay_schedule (id : OverlayId) (checked : Bool) (s : State) :
    (checkOverlay id checked s).schedule = s.schedule := by
  cases id <;> rfl

/-- `checkFollow` leaves the scheduler alone. -/
theorem checkFollow_schedule (id : FollowId) (checked : Bool) (s : State) :
    (checkFollow id checked s).schedule = s.schedule := by
  cases id <;> simp only [checkFollow, zoom_schedule] <;> rfl

/-- The timer invariant depends on the scheduler part of the state only. -/
theorem TimerInv_of_schedule {s s1 : State} (h : s1.schedule = s.schedule)
    (hs : TimerInv s) : TimerInv s1 := by
  simp only [State.schedule, Schedule.mk.injEq] at h
  obtain ⟨h1, h2, h3, h4, -⟩ := h
  unfold TimerInv at *
  rw [h1, h2, h3, h4]
  exact hs

/-- What `workerSchedule` does to the scheduler depends on the scheduler only. -/
theorem workerSchedule_congr {s s1 : State} (h : s1.schedule = s.schedule) :
    (workerSchedule s1).schedule = (workerSchedule s).schedule := by
  simp only [State.schedule, Schedule.mk.injEq] at h
  obtain ⟨h1, h2, h3, h4, h5, h6, h7, -⟩ := h
  unfold workerSchedule clearTimeout
  simp only [h3, h4]
  cases s.refreshTimeout <;> cases s.isRefreshing <;> simp [State.schedule, h1, h2, h5, h6, h7]

/-- When every pending timeout is the stored one, `clearTimeout` leaves none. -/
theorem clearTimeout_timers (s : State) (h : ∀ t ∈ s.timers, s.refreshTimeout = some t.id) :
    (clearTimeout s).timers = [] := by
  unfold clearTimeout
  cases hr : s.refreshTimeout with
  | none =>
    cases ht : s.timers with
    | nil => simp [ht]
    | cons t rest =>
      have := h t (by simp [ht])
      simp [hr] at this
  | some id =>
    simp only [List.filter_eq_nil_iff]
    intro t ht
    have := h t ht
    rw [hr] at this
    simp at this
    simp [this]

/-- When every pending timeout is the stored one, `clearTimeout` only empties
the pending list. -/
theorem clearTimeout_eq (s : State) (h : ∀ t ∈ s.timers, s.refreshTimeout = some t.id) :
    clearTimeout s = { s with timers := [] } := by
  have hc := clearTimeout_timers s h
  unfold clearTimeout at hc ⊢
  cases hr : s.refreshTimeout with
  | none =>
    rw [hr] at hc
    simp only at hc ⊢
    cases s
    simp_all
  | some id =>
    rw [hr] at hc
    simp only at hc ⊢
    rw [hc]

/-- `workerSchedule` in closed form, when every pending timeout is the stored one. -/
theorem workerSchedule_eq (s : State) (h : ∀ t ∈ s.timers, s.refreshTimeout = some t.id) :
    workerSchedule s
      = if s.isRefreshing then
          { s with
            loadingVisible := false
            timers := [{ id := s.nextTimer, delay := s.refresh }]
            refreshTimeout := some s.nextTimer
            nextTimer := s.nextTimer + 1 }
        else { s with loadingVisible := false, timers := [] } := by
  unfold workerSchedule
  rw [clearTimeout_eq { s with loadingVisible := false } h]
  simp only []
  split <;> simp

/-- `workerSchedule` establishes the timer invariant. -/
theorem TimerInv_workerSchedule (s : State)
    (h : ∀ t ∈ s.timers, s.refreshTimeout = some t.id) : TimerInv (workerSchedule s) := by
  rw [workerSchedule_eq s h]
  unfold TimerInv
  split <;> simp_all

/-- Whatever the message, `workerMessage` leaves the scheduler as
`workerSchedule` alone would. -/
theorem workerMessage_schedule (data : WorkerData) (s : State) :
    (workerMessage data s).schedule = (workerSchedule s).schedule := by
  unfold workerMessage
  apply workerSchedule_congr
  cases data with
  | empty => rfl
  | result pts loc =>
    simp only [WorkerData.length, beq_self_eq_true, if_true]
    rw [updateInfo_schedule, updateLayers_schedule]
    rfl

/-- A timeout coming due keeps the timer invariant. -/
theorem TimerInv_fireTimer (id : Nat) (s : State) (h : TimerInv s) :
    TimerInv (fireTimer id s) := by
  unfold fireTimer
  split
  · obtain ⟨h1, h2, h3, h4⟩ := h
    refine ⟨?_, ?_, ?_, ?_⟩
    · intro t ht
      exact h1 t (List.mem_of_mem_filter ht)
    · intro t ht
      exact h2 t (List.mem_of_mem_filter ht)
    · exact le_trans (List.length_filter_le _ _) h3
    · intro hne
      apply h4
      intro hnil
      apply hne
      simp [workerStart, hnil]
  · exact h

/-- Every event keeps the timer invariant. -/
theorem TimerInv_step (s : State) (e : Event) (h : TimerInv s) : TimerInv (step s e) := by
  cases e with
  | checkOverlay id checked => exact TimerInv_of_schedule (checkOverlay_schedule id checked s) h
  | checkFollow id checked => exact TimerInv_of_schedule (checkFollow_schedule id checked s) h
  | slideRadius value => exact h
  | slideRefresh value => exact TimerInv_workerSchedule _ h.1
  | click id =>
    cases id with
    | play => exact TimerInv_workerSchedule _ h.1
    | pause => exact TimerInv_workerSchedule _ h.1
  | timer id => exact TimerInv_fireTimer id s h
  | message data =>
    have hs : TimerInv (workerSchedule { s with inFlight := s.inFlight - 1 }) :=
      TimerInv_workerSchedule _ h.1
    exact TimerInv_of_schedule (workerMessage_schedule data _) hs

/-- The timer invariant holds at startup. -/
theorem TimerInv_startup : TimerInv startup := by
  unfold TimerInv
  simp [startup, workerStart, initial]

/-- Every sequence of events keeps the timer invariant. -/
theorem TimerInv_run (events : List Event) :
    ∀ s : State, TimerInv s → TimerInv (run s events) := by
  induction events with
  | nil => intro s h; exact h
  | cons e rest ih => intro s h; exact ih (step s e) (TimerInv_step s e h)

/-- The timer invariant holds in every state reachable from startup. -/
theorem TimerInv_reachable (events : List Event) : TimerInv (run startup events) :=
  TimerInv_run events startup TimerInv_startup

/-- The scheduler fields after `workerSchedule`, when every pending timeout is
the stored one. -/
theorem workerSchedule_fields (s : State)
    (h : ∀ t ∈ s.timers, s.refreshTimeout = some t.id) :
    (workerSchedule s).inFlight = s.inFlight
    ∧ (workerSchedule s).requested = s.requested
    ∧ (workerSchedule s).isRefreshing = s.isRefreshing
    ∧ (workerSchedule s).timers
      = if s.isRefreshing then [{ id := s.nextTimer, delay := s.refresh }] else [] := by
  rw [workerSchedule_eq s h]
  split <;> simp_all

/-- A timeout coming due keeps fetches in flight plus pending timers at most one. -/
theorem fireTimer_chain (id : Nat) (s : State) (h3 : s.timers.length ≤ 1)
    (hc : s.inFlight + s.timers.length ≤ 1) :
    (fireTimer id s).inFlight + (fireTimer id s).timers.length ≤ 1 := by
  unfold fireTimer
  cases ht : s.timers with
  | nil => simpa [ht] using hc
  | cons t rest =>
    cases rest with
    | cons t2 rest2 => simp [ht] at h3
    | nil =>
      rw [ht] at hc
      by_cases hid : t.id = id
      · simp [hid, workerStart] at hc ⊢
        omega
      · simp only [List.any_cons, List.any_nil, Bool.or_false, beq_iff_eq, hid, if_false]
        rw [ht]
        exact hc

/-- An event that keeps the poll chain keeps fetches in flight plus pending
timers at most one. -/
theorem step_chain (s : State) (e : Event) (hi : TimerInv s)
    (hc : s.inFlight + s.timers.length ≤ 1) (he : e.keepsChain s = true) :
    (step s e).inFlight + (step s e).timers.length ≤ 1 := by
  cases e with
  | checkOverlay id checked =>
    have h := checkOverlay_schedule id checked s
    simp only [State.schedule, Schedule.mk.injEq] at h
    simp only [step, h.1, h.2.2.2.2.2.2.1]
    exact hc
  | checkFollow id checked =>
    have h := checkFollow_schedule id checked s
    simp only [State.schedule, Schedule.mk.injEq] at h
    simp only [step, h.1, h.2.2.2.2.2.2.1]
    exact hc
  | slideRadius value => exact hc
  | slideRefresh value =>
    obtain ⟨h1, -, -, h4⟩ := workerSchedule_fields { s with refresh := value * 1000 } hi.1
    simp only [step, slideRefresh, h1, h4]
    simp only [Event.keepsChain, Bool.or_eq_true, beq_iff_eq, Bool.not_eq_true'] at he
    rcases he with he | he
    · rw [he]
      split <;> simp
    · simp only [he]
      simp
      omega
  | click id =>
    cases id with
    | play =>
      obtain ⟨h1, -, -, h4⟩ := workerSchedule_fields
        { s with isRefreshing := true, playDisabled := true, pauseDisabled := false } hi.1
      simp only [step, buttonPlay, h1, h4]
      simp only [Event.keepsChain, beq_iff_eq] at he
      simp [he]
    | pause =>
      obtain ⟨h1, -, -, h4⟩ := workerSchedule_fields
        { s with isRefreshing := false, pauseDisabled := true, playDisabled := false } hi.1
      simp only [step, buttonPlay, h1, h4]
      simp
      omega
  | timer id => exact fireTimer_chain id s hi.2.2.1 hc
  | message data =>
    have h := workerMessage_schedule data { s with inFlight := s.inFlight - 1 }
    obtain ⟨h1, -, -, h4⟩ := workerSchedule_fields { s with inFlight := s.inFlight - 1 } hi.1
    simp only [State.schedule, Schedule.mk.injEq] at h
    simp only [step, h.1, h.2.2.2.2.2.2.1, h1, h4]
    split <;> simp <;> omega

/-- A sequence of events that keep the poll chain keeps fetches in flight plus
pending timers at most one. -/
theorem run_chain (events : List Event) :
    ∀ s : State, TimerInv s → s.inFlight + s.timers.length ≤ 1 →
      keepsChain s events = true →
      (run s events).inFlight + (run s events).timers.length ≤ 1 := by
  induction events with
  | nil => intro s _ hc _; exact hc
  | cons e rest ih =>
    intro s hi hc hk
    simp only [keepsChain, Bool.and_eq_true] at hk
    exact ih (step s e) (TimerInv_step s e hi) (step_chain s e hi hc hk.1) hk.2

/-- C4 as stated fails: at startup a fetch is in flight; a change of the
refresh slider arms a timer although the fetch has not delivered its message,
and when that timer comes due `workerStart` runs again, so two fetches are in
flight. -/
theorem slider_change_starts_second_fetch :
    startup.inFlight = 1
    ∧ (run startup [.slideRefresh 1]).timers = [{ id := 0, delay := 1000 }]
    ∧ (run startup [.slideRefresh 1, .timer 0]).inFlight = 2
    ∧ (run startup [.slideRefresh 1, .timer 0]).requested = 2
    ∧ ¬ ∀ events : List Event, (run startup events).inFlight ≤ 1 := by
  refine ⟨rfl, rfl, rfl, rfl, fun hall => ?_⟩
  exact absurd (hall [.slideRefresh 1, .timer 0]) (by decide)

/-- C4, amended: in every state reachable from startup by pause clicks, timer
firings, worker messages and overlay or follow changes, together with play
clicks made while no fetch is in flight and refresh-slider changes made while no
fetch is in flight or while paused, at most one fetch is in flight, and no timer
is pending while one is. -/
theorem chained_events_keep_one_fetch (events : List Event)
    (h : keepsChain startup events = true) :
    (run startup events).inFlight ≤ 1
    ∧ (run startup events).inFlight + (run startup events).timers.length ≤ 1 := by
  have hc := run_chain events startup TimerInv_startup (by decide) h
  exact ⟨by omega, hc⟩

/-- Witness of C4, amended: a full poll cycle, a pause during the second fetch,
a slider change while paused, and play once the message has arrived. -/
theorem chained_events_keep_one_fetch_witness :
    keepsChain startup [.message (.result [(1, 2)] none), .timer 0, .click .pause,
        .slideRefresh 2, .message .empty, .click .play, .slideRefresh 3, .timer 2] = true
    ∧ (run startup [.message (.result [(1, 2)] none), .timer 0, .click .pause,
        .slideRefresh 2, .message .empty, .click .play, .slideRefresh 3, .timer 2]).inFlight ≤ 1
    ∧ (run startup [.message (.result [(1, 2)] none), .timer 0, .click .pause,
        .slideRefresh 2, .message .empty, .click .play, .slideRefresh 3, .timer 2]).inFlight
      + (run startup [.message (.result [(1, 2)] none), .timer 0, .click .pause,
        .slideRefresh 2, .message .empty, .click .play, .slideRefresh 3,
        .timer 2]).timers.length ≤ 1 :=
  ⟨by decide, chained_events_keep_one_fetch _ (by decide)⟩

/-- C5: in every state reachable from startup at most one re-arm timer is
pending, and one is pending only while the running flag is set; there
`workerSchedule` cancels every timer that was pending, so that none of them is
pending afterwards, and leaves one new timer with the current refresh interval
if the running flag is set and none otherwise. -/
theorem at_most_one_timer_pending (events : List Event) :
    (run startup events).timers.length ≤ 1
    ∧ ((run startup events).timers = [] ∨ (run startup events).isRefreshing = true)
    ∧ List.Disjoint (run startup events).timers (workerSchedule (run startup events)).timers
    ∧ (workerSchedule (run startup events)).timers
      = (if (run startup events).isRefreshing
          then [{ id := (run startup events).nextTimer, delay := (run startup events).refresh }]
          else []) := by
  obtain ⟨h1, h2, h3, h4⟩ := TimerInv_reachable events
  have hw := (workerSchedule_fields (run startup events) h1).2.2.2
  refine ⟨h3, ?_, ?_, hw⟩
  · by_cases hnil : (run startup events).timers = []
    · exact Or.inl hnil
    · exact Or.inr (h4 hnil)
  · rw [hw]
    intro t ht hnew
    have hlt := h2 t ht
    split at hnew
    · simp only [List.mem_singleton] at hnew
      rw [hnew] at hlt
      simp at hlt
    · simp at hnew

/-- C6: the empty message, which is what the worker posts on a timeout or a
transport error, leaves the scan state and everything rendered from it as they
were and does not run `updateLayers`; it leaves the scheduler exactly as a
result message would; and in every state reachable from startup it leaves one
timer with the current refresh interval if the running flag is set, none
otherwise. -/
theorem failure_message_only_rearms (s : State) (events : List Event) :
    getLocations .timeout = [.empty]
    ∧ getLocations .error = [.empty]
    ∧ (workerMessage .empty s).points = s.points
    ∧ (workerMessage .empty s).lastPoint = s.lastPoint
    ∧ (workerMessage .empty s).renders = s.renders
    ∧ (workerMessage .empty s).markersLocation = s.markersLocation
    ∧ (workerMessage .empty s).markersLast = s.markersLast
    ∧ (workerMessage .empty s).dropped = s.dropped
    ∧ (workerMessage .empty s).heatmapData = s.heatmapData
    ∧ (workerMessage .empty s).heatmapMap = s.heatmapMap
    ∧ (workerMessage .empty s).viewport = s.viewport
    ∧ (workerMessage .empty s).zoomCalls = s.zoomCalls
    ∧ (workerMessage .empty s).dispLocs = s.dispLocs
    ∧ (workerMessage .empty s).dispCoords = s.dispCoords
    ∧ (∀ points location, (workerMessage .empty s).schedule
        = (workerMessage (.result points location) s).schedule)
    ∧ (workerMessage .empty (run startup events)).timers
      = (if (run startup events).isRefreshing
          then [{ id := (run startup events).nextTimer, delay := (run startup events).refresh }]
          else []) := by
  have hk : ∀ u : State, workerMessage .empty u = workerSchedule u := fun _ => rfl
  have hf : ∀ u : State, (workerSchedule u).points = u.points
      ∧ (workerSchedule u).lastPoint = u.lastPoint
      ∧ (workerSchedule u).renders = u.renders
      ∧ (workerSchedule u).markersLocation = u.markersLocation
      ∧ (workerSchedule u).markersLast = u.markersLast
      ∧ (workerSchedule u).dropped = u.dropped
      ∧ (workerSchedule u).heatmapData = u.heatmapData
      ∧ (workerSchedule u).heatmapMap = u.heatmapMap
      ∧ (workerSchedule u).viewport = u.viewport
      ∧ (workerSchedule u).zoomCalls = u.zoomCalls
      ∧ (workerSchedule u).dispLocs = u.dispLocs
      ∧ (workerSchedule u).dispCoords = u.dispCoords := by
    intro u
    unfold workerSchedule clearTimeout
    cases u.refreshTimeout <;> cases u.isRefreshing <;> simp
  obtain ⟨f1, f2, f3, f4, f5, f6, f7, f8, f9, f10, f11, f12⟩ := hf s
  refine ⟨rfl, rfl, ?_, ?_, ?_, ?_, ?_, ?_, ?_, ?_, ?_, ?_, ?_, ?_, ?_, ?_⟩
  all_goals try (rw [hk]; assumption)
  · intro points location
    rw [workerMessage_schedule, workerMessage_schedule]
  · rw [hk]
    exact (workerSchedule_fields _ (TimerInv_reachable events).1).2.2.2

/-! ## The render pipeline -/

/-- A loop that pushes one element per input element appends their images. -/
theorem push_foldl {α β : Type} (f : α → β) (xs : List α) (init : List β) :
    xs.foldl (fun acc x => acc ++ [f x]) init = init ++ xs.map f := by
  induction xs generalizing init with
  | nil => simp
  | cons x rest ih => simp [ih]

/-- `updateLayers` in closed form. -/
theorem updateLayers_eq (s : State) :
    updateLayers s =
      { s with
        markersLocation := s.points.map fun p =>
          { position := p, icon := none, map := if s.overlay.locations then some baseMap else none }
        markersLast := (s.lastPoint.map fun p =>
          ({ position := p, icon := some "/crosshair.png", map := if s.overlay.last then some baseMap else none } :
            Marker)).toList
        dropped := s.dropped ++ setMarkers s.markersLocation none
          ++ setMarkers s.markersLast none
        heatmapData := s.points
        heatmapMap := if s.overlay.heatmap then some baseMap else none
        renders := s.renders + 1
        viewport := if followed s = [] then s.viewport
          else some { extended := (followed s).map latLngToLonLat }
        zoomCalls := if followed s = [] then s.zoomCalls else s.zoomCalls + 1 } := by
  unfold updateLayers
  rw [zoom_eq]
  obtain ⟨points, lastPoint, ml, ma, rf, rt, ir, ov, ⟨flast, floc⟩, _⟩ := s
  simp only [clearMarkers, push_foldl, List.nil_append, showLayers, setMarkers, followed,
    zoomToExtent, List.map_map]
  cases lastPoint <;> cases flast <;> cases floc <;> cases points <;>
    simp [Function.comp_def]

/-- After `setMarkers(markers, null)` none of the markers is on a map. -/
theorem setMarkers_none_drawn (markers : List Marker) :
    (setMarkers markers none).filter (fun m => m.map.isSome) = [] := by
  simp [setMarkers, List.filter_eq_nil_iff]

/-- The rendering `updateLayers` leaves. -/
theorem updateLayers_rendered (s : State) :
    (updateLayers s).rendered =
      { markersLocation := s.points.map fun p =>
          { position := p, icon := none
            map := if s.overlay.locations then some baseMap else none }
        markersLast := (s.lastPoint.map fun p =>
          ({ position := p, icon := some "/crosshair.png"
             map := if s.overlay.last then some baseMap else none } : Marker)).toList
        drawn := ((s.points.map fun p =>
            ({ position := p, icon := none
               map := if s.overlay.locations then some baseMap else none } : Marker))
          ++ (s.lastPoint.map fun p =>
            ({ position := p, icon := some "/crosshair.png"
               map := if s.overlay.last then some baseMap else none } : Marker)).toList
          ++ s.dropped).filter fun m => m.map.isSome
        heatmapData := s.points
        heatmapMap := if s.overlay.heatmap then some baseMap else none
        viewport := if followed s = [] then s.viewport
          else some { extended := (followed s).map latLngToLonLat } } := by
  rw [updateLayers_eq]
  simp only [State.rendered, List.filter_append, setMarkers_none_drawn, List.append_nil]

/-- `updateLayers` keeps the scan state and the configuration, counts one run,
draws none of the markers it drops and zooms as `zoom` does. -/
theorem updateLayers_inputs (s : State) :
    (updateLayers s).points = s.points ∧ (updateLayers s).lastPoint = s.lastPoint
    ∧ (updateLayers s).overlay = s.overlay ∧ (updateLayers s).follow = s.follow
    ∧ (updateLayers s).renders = s.renders + 1
    ∧ (updateLayers s).dropped.filter (fun m => m.map.isSome)
      = s.dropped.filter (fun m => m.map.isSome)
    ∧ (updateLayers s).viewport = (if followed s = [] then s.viewport
          else some { extended := (followed s).map latLngToLonLat }) := by
  rw [updateLayers_eq]
  simp only [List.filter_append, setMarkers_none_drawn, List.append_nil]
  simp

/-- C8: rendering is idempotent. Running `updateLayers` a second time leaves
the rendering (marker arrays, markers drawn on a map, heatmap data and map, and
the extent zoomed to) as the first run left it; after either run the location
array holds exactly one marker per point, in point order, the last array one
crosshair marker if `lastPoint` is present and none otherwise, the heatmap data
are the points, and the markers the run dropped from the arrays are on no map. -/
theorem updateLayers_idempotent (s : State) :
    (updateLayers (updateLayers s)).rendered = (updateLayers s).rendered
    ∧ (updateLayers s).markersLocation
      = (s.points.map fun p =>
          { position := p, icon := none
            map := if s.overlay.locations then some baseMap else none })
    ∧ (updateLayers (updateLayers s)).markersLocation = (updateLayers s).markersLocation
    ∧ (updateLayers s).markersLast
      = (s.lastPoint.map fun p =>
          ({ position := p, icon := some "/crosshair.png"
             map := if s.overlay.last then some baseMap else none } : Marker)).toList
    ∧ (updateLayers (updateLayers s)).markersLast = (updateLayers s).markersLast
    ∧ (updateLayers (updateLayers s)).markersLocation.length = s.points.length
    ∧ (updateLayers (updateLayers s)).markersLast.length = (if s.lastPoint.isSome then 1 else 0)
    ∧ (updateLayers (updateLayers s)).heatmapData = s.points
    ∧ (updateLayers (updateLayers s)).heatmapMap = (updateLayers s).heatmapMap
    ∧ (updateLayers (updateLayers s)).viewport = (updateLayers s).viewport
    ∧ (updateLayers (updateLayers s)).dropped.filter (fun m => m.map.isSome)
      = s.dropped.filter (fun m => m.map.isSome) := by
  obtain ⟨i1, i2, i3, i4, -, i6, i7⟩ := updateLayers_inputs s
  have hfol : followed (updateLayers s) = followed s := by
    unfold followed
    rw [i1, i2, i4]
  have hr1 := updateLayers_rendered s
  have hr2 := updateLayers_rendered (updateLayers s)
  have hidem : (updateLayers (updateLayers s)).rendered = (updateLayers s).rendered := by
    rw [hr2, hr1]
    simp only [List.filter_append, i1, i2, i3, i6, i7, hfol]
    by_cases hf : followed s = [] <;> simp [hf]
  have hloc : (updateLayers s).markersLocation
      = (s.points.map fun p =>
          { position := p, icon := none
            map := if s.overlay.locations then some baseMap else none }) :=
    congrArg Rendered.markersLocation hr1
  have hlast : (updateLayers s).markersLast
      = (s.lastPoint.map fun p =>
          ({ position := p, icon := some "/crosshair.png"
             map := if s.overlay.last then some baseMap else none } : Marker)).toList :=
    congrArg Rendered.markersLast hr1
  have hloc2 : (updateLayers (updateLayers s)).markersLocation
      = (updateLayers s).markersLocation := congrArg Rendered.markersLocation hidem
  have hlast2 : (updateLayers (updateLayers s)).markersLast
      = (updateLayers s).markersLast := congrArg Rendered.markersLast hidem
  have hheat : (updateLayers (updateLayers s)).heatmapData = (updateLayers s).points :=
    congrArg Rendered.heatmapData hr2
  refine ⟨hidem, hloc, hloc2, hlast, hlast2, ?_, ?_, ?_,
    congrArg Rendered.heatmapMap hidem, congrArg Rendered.viewport hidem, ?_⟩
  · rw [hloc2, hloc]
    simp
  · rw [hlast2, hlast]
    cases s.lastPoint <;> rfl
  · rw [hheat, i1]
  · rw [(updateLayers_inputs (updateLayers s)).2.2.2.2.2.1, i6]

/-- C9: `zoom` calls `map.zoomToExtent` exactly when the followed set is not
empty, and then with bounds extended by exactly the coordinates of the followed
set, points first; otherwise it leaves the state as it is. With both follow flags
off it changes nothing, whatever the points and the last point are, and
`checkFollow` zooms with the flag it has just stored. -/
theorem zoom_iff_followed_nonempty (s : State) :
    zoom s = (if followed s = [] then s
      else { s with
        viewport := some { extended := (followed s).map latLngToLonLat }
        zoomCalls := s.zoomCalls + 1 })
    ∧ ((zoom s).zoomCalls = s.zoomCalls + 1 ↔ followed s ≠ [])
    ∧ ((zoom s).zoomCalls = s.zoomCalls ↔ followed s = [])
    ∧ (followed s = [] ∨ (zoom s).viewport
        = some ((followed s).foldl (fun b p => b.extend (latLngToLonLat p)) { extended := [] }))
    ∧ zoom { s with follow := { last := false, locations := false } }
        = { s with follow := { last := false, locations := false } }
    ∧ (∀ checked, checkFollow .followLast checked s
        = zoom { s with follow := { s.follow with last := checked } })
    ∧ (∀ checked, checkFollow .followLocs checked s
        = zoom { s with follow := { s.follow with locations := checked } }) := by
  have hz := zoom_eq s
  have hfold : ∀ (l : List LatLng) (b : Bounds),
      l.foldl (fun b p => b.extend (latLngToLonLat p)) b
        = { extended := b.extended ++ l.map latLngToLonLat } := by
    intro l
    induction l with
    | nil => intro b; simp
    | cons p rest ih =>
      intro b
      simp only [List.foldl_cons]
      rw [ih]
      simp [Bounds.extend]
  refine ⟨?_, ?_, ?_, ?_, ?_, fun _ => rfl, fun _ => rfl⟩
  · rw [hz]; rfl
  · rw [hz]
    by_cases hf : followed s = [] <;> simp [hf, zoomToExtent]
  · rw [hz]
    by_cases hf : followed s = [] <;> simp [hf, zoomToExtent]
  · by_cases hf : followed s = []
    · exact Or.inl hf
    · right
      rw [hz, if_neg hf, hfold]
      simp [zoomToExtent]
  · rw [zoom_eq]
    simp [followed]

/-- C10: after `showLayers` every marker of the location array is on the base
map if `overlay.locations` is set and on no map otherwise, every marker of the
last array follows `overlay.last` in the same way and the heatmap follows
`overlay.heatmap`; both arrays keep their markers, in order, with position and
icon untouched, and nothing is added to the dropped markers. With
`overlay.heatmap` off the heatmap is on no map, whatever the scan state is. -/
theorem showLayers_follows_overlay (s : State) :
    (showLayers s).markersLocation = (s.markersLocation.map fun m =>
      { m with map := if s.overlay.locations then some baseMap else none })
    ∧ (showLayers s).markersLast = (s.markersLast.map fun m =>
      { m with map := if s.overlay.last then some baseMap else none })
    ∧ (showLayers s).heatmapMap = (if s.overlay.heatmap then some baseMap else none)
    ∧ (∀ m ∈ (showLayers s).markersLocation,
        (m.map = some baseMap ↔ s.overlay.locations = true)
        ∧ (m.map = none ↔ s.overlay.locations = false))
    ∧ (∀ m ∈ (showLayers s).markersLast,
        (m.map = some baseMap ↔ s.overlay.last = true)
        ∧ (m.map = none ↔ s.overlay.last = false))
    ∧ ((showLayers s).heatmapMap = some baseMap ↔ s.overlay.heatmap = true)
    ∧ ((showLayers s).heatmapMap = none ↔ s.overlay.heatmap = false)
    ∧ (showLayers s).markersLocation.length = s.markersLocation.length
    ∧ (showLayers s).markersLast.length = s.markersLast.length
    ∧ (showLayers s).markersLocation.map (fun m => (m.position, m.icon))
      = s.markersLocation.map (fun m => (m.position, m.icon))
    ∧ (showLayers s).markersLast.map (fun m => (m.position, m.icon))
      = s.markersLast.map (fun m => (m.position, m.icon))
    ∧ (showLayers s).dropped = s.dropped
    ∧ (showLayers s).heatmapData = s.heatmapData
    ∧ (showLayers s).overlay = s.overlay
    ∧ (showLayers { s with overlay := { s.overlay with heatmap := false } }).heatmapMap = none
    ∧ (∀ checked, (checkOverlay .overlayHeat checked s).heatmapMap
        = (if checked then some baseMap else none)) := by
  refine ⟨rfl, rfl, rfl, ?_, ?_, ?_, ?_, ?_, ?_, ?_, ?_, rfl, rfl, rfl, rfl, fun _ => rfl⟩
  · intro m hm
    simp only [showLayers, setMarkers, List.mem_map] at hm
    obtain ⟨m0, -, rfl⟩ := hm
    cases s.overlay.locations <;> simp
  · intro m hm
    simp only [showLayers, setMarkers, List.mem_map] at hm
    obtain ⟨m0, -, rfl⟩ := hm
    cases s.overlay.last <;> simp
  · simp only [showLayers]
    cases s.overlay.heatmap <;> simp
  · simp only [showLayers]
    cases s.overlay.heatmap <;> simp
  · simp [showLayers, setMarkers]
  · simp [showLayers, setMarkers]
  · simp [showLayers, setMarkers, Function.comp_def]
  · simp [showLayers, setMarkers, Function.comp_def]

/-! ## Pausing while a fetch is in flight -/

/-- `workerSchedule` leaves the scan state and the rendering alone. -/
theorem workerSchedule_frame (u : State) :
    (workerSchedule u).points = u.points
    ∧ (workerSchedule u).lastPoint = u.lastPoint
    ∧ (workerSchedule u).renders = u.renders
    ∧ (workerSchedule u).markersLocation = u.markersLocation
    ∧ (workerSchedule u).markersLast = u.markersLast
    ∧ (workerSchedule u).heatmapData = u.heatmapData := by
  unfold workerSchedule clearTimeout
  cases u.refreshTimeout <;> cases u.isRefreshing <;> simp

/-- A result message replaces the scan state and is rendered. -/
theorem workerMessage_result (points : List Coords) (location : Option Coords) (s : State) :
    (workerMessage (.result points location) s).points
      = points.map (fun c => { lat := c.1, lng := c.2 })
    ∧ (workerMessage (.result points location) s).lastPoint
      = location.map (fun c => { lat := c.1, lng := c.2 })
    ∧ (workerMessage (.result points location) s).renders = s.renders + 1
    ∧ (workerMessage (.result points location) s).markersLocation.map (fun m => m.position)
      = points.map (fun c => { lat := c.1, lng := c.2 })
    ∧ (workerMessage (.result points location) s).markersLast.map (fun m => m.position)
      = (location.map (fun c => ({ lat := c.1, lng := c.2 } : LatLng))).toList
    ∧ (workerMessage (.result points location) s).heatmapData
      = points.map (fun c => { lat := c.1, lng := c.2 }) := by
  have hw : ∃ u : State,
      workerMessage (.result points location) s = workerSchedule (updateInfo (updateLayers u))
      ∧ u.points = points.map (fun c => { lat := c.1, lng := c.2 })
      ∧ u.lastPoint = location.map (fun c => { lat := c.1, lng := c.2 })
      ∧ u.renders = s.renders := by
    refine ⟨_, rfl, ?_, ?_, rfl⟩
    · simp [push_foldl]
    · cases location <;> rfl
  obtain ⟨u, hw, hp, hl, hr⟩ := hw
  obtain ⟨f1, f2, f3, f4, f5, f6⟩ := workerSchedule_frame (updateInfo (updateLayers u))
  rw [hw, f1, f2, f3, f4, f5, f6]
  simp only [updateInfo, updateLayers_eq, hp, hl, hr]
  cases location <;> simp [Function.comp_def]

/-- While paused with no timer pending, an event other than a click on play
keeps it so and does not call `workerStart`. -/
theorem paused_step (s : State) (e : Event)
    (hp : s.isRefreshing = false ∧ s.timers = []) (he : e.notPlay = true) :
    (step s e).isRefreshing = false ∧ (step s e).timers = []
      ∧ (step s e).requested = s.requested := by
  obtain ⟨hr, ht⟩ := hp
  have hstored : ∀ u : State, u.timers = s.timers →
      ∀ t ∈ u.timers, u.refreshTimeout = some t.id := by
    intro u hu t htm
    rw [hu, ht] at htm
    simp at htm
  cases e with
  | checkOverlay id checked =>
    have h := checkOverlay_schedule id checked s
    simp only [State.schedule, Schedule.mk.injEq] at h
    simp only [step, h.1, h.2.2.2.1, h.2.2.2.2.2.1, hr, ht]
    simp
  | checkFollow id checked =>
    have h := checkFollow_schedule id checked s
    simp only [State.schedule, Schedule.mk.injEq] at h
    simp only [step, h.1, h.2.2.2.1, h.2.2.2.2.2.1, hr, ht]
    simp
  | slideRadius value => exact ⟨hr, ht, rfl⟩
  | slideRefresh value =>
    obtain ⟨-, h2, h3, h4⟩ :=
      workerSchedule_fields { s with refresh := value * 1000 } (hstored _ rfl)
    exact ⟨h3.trans hr, h4.trans (by simp [hr]), h2⟩
  | click id =>
    cases id with
    | play => simp [Event.notPlay] at he
    | pause =>
      obtain ⟨-, h2, h3, h4⟩ := workerSchedule_fields
        { s with isRefreshing := false, pauseDisabled := true, playDisabled := false }
        (hstored _ rfl)
      simp only [step, buttonPlay, h2, h3, h4]
      simp
  | timer id =>
    simp only [step, fireTimer, ht, List.any_nil]
    simp [hr, ht]
  | message data =>
    have h := workerMessage_schedule data { s with inFlight := s.inFlight - 1 }
    obtain ⟨-, h2, h3, h4⟩ :=
      workerSchedule_fields { s with inFlight := s.inFlight - 1 } (hstored _ rfl)
    simp only [State.schedule, Schedule.mk.injEq] at h
    exact ⟨(h.2.2.2.1.trans h3).trans hr, (h.1.trans h4).trans (by simp [hr]),
      h.2.2.2.2.2.1.trans h2⟩

/-- While paused with no timer pending, events other than a click on play keep
it so and do not call `workerStart`. -/
theorem paused_run (events : List Event) :
    ∀ s : State, s.isRefreshing = false ∧ s.timers = [] →
      (∀ e ∈ events, e.notPlay = true) →
      (run s events).isRefreshing = false ∧ (run s events).timers = []
        ∧ (run s events).requested = s.requested := by
  induction events with
  | nil => intro s hp _; exact ⟨hp.1, hp.2, rfl⟩
  | cons e rest ih =>
    intro s hp he
    obtain ⟨h1, h2, h3⟩ := paused_step s e hp (he e (List.mem_cons_self _ _))
    obtain ⟨k1, k2, k3⟩ := ih (step s e) ⟨h1, h2⟩ (fun x hx => he x (List.mem_cons_of_mem _ hx))
    exact ⟨k1, k2, by rw [run_cons, k3, h3]⟩

/-- A click on pause clears the running flag and the pending timer. -/
theorem pause_clears (s : State) (h : TimerInv s) :
    (step s (.click .pause)).isRefreshing = false ∧ (step s (.click .pause)).timers = []
      ∧ (step s (.click .pause)).requested = s.requested := by
  obtain ⟨-, h2, h3, h4⟩ := workerSchedule_fields
    { s with isRefreshing := false, pauseDisabled := true, playDisabled := false } h.1
  simp only [step, buttonPlay, h2, h3, h4]
  simp

/-- C7: let pause be clicked in any state reachable from startup (a fetch may
be in flight), let any events other than a click on play follow, and let then a
result message of the worker arrive. The message replaces `points` and
`lastPoint` and is rendered (`updateLayers` runs once, markers and heatmap show
the new data), no timer is pending after it, and through any further events
other than a click on play no timer becomes pending and `workerStart` is not
called again. -/
theorem pause_suppresses_rearm (pre mid post : List Event) (points : List Coords)
    (location : Option Coords) (hmid : ∀ e ∈ mid, e.notPlay = true)
    (hpost : ∀ e ∈ post, e.notPlay = true) :
    (run startup (pre ++ [.click .pause] ++ mid ++ [.message (.result points location)])).points
      = points.map (fun c => { lat := c.1, lng := c.2 })
    ∧ (run startup
        (pre ++ [.click .pause] ++ mid ++ [.message (.result points location)])).lastPoint
      = location.map (fun c => { lat := c.1, lng := c.2 })
    ∧ (run startup
        (pre ++ [.click .pause] ++ mid ++ [.message (.result points location)])).renders
      = (run startup (pre ++ [.click .pause] ++ mid)).renders + 1
    ∧ (run startup (pre ++ [.click .pause] ++ mid
        ++ [.message (.result points location)])).markersLocation.map (fun m => m.position)
      = points.map (fun c => { lat := c.1, lng := c.2 })
    ∧ (run startup (pre ++ [.click .pause] ++ mid
        ++ [.message (.result points location)])).markersLast.map (fun m => m.position)
      = (location.map (fun c => ({ lat := c.1, lng := c.2 } : LatLng))).toList
    ∧ (run startup
        (pre ++ [.click .pause] ++ mid ++ [.message (.result points location)])).heatmapData
      = points.map (fun c => { lat := c.1, lng := c.2 })
    ∧ (run startup
        (pre ++ [.click .pause] ++ mid ++ [.message (.result points location)])).timers = []
    ∧ (run startup (pre ++ [.click .pause] ++ mid
        ++ [.message (.result points location)] ++ post)).timers = []
    ∧ (run startup (pre ++ [.click .pause] ++ mid
        ++ [.message (.result points location)] ++ post)).isRefreshing = false
    ∧ (run startup (pre ++ [.click .pause] ++ mid
        ++ [.message (.result points location)] ++ post)).requested
      = (run startup pre).requested := by
  have hpause := pause_clears (run startup pre) (TimerInv_reachable pre)
  have hall : ∀ e ∈ mid ++ [.message (.result points location)] ++ post,
      e.notPlay = true := by
    intro e he
    simp only [List.mem_append, List.mem_singleton] at he
    rcases he with (he | he) | he
    · exact hmid e he
    · rw [he]; rfl
    · exact hpost e he
  have hmsg : ∀ e ∈ mid ++ [Event.message (.result points location)],
      e.notPlay = true := by
    intro e he
    exact hall e (List.mem_append_left _ he)
  have h2 := paused_run (mid ++ [.message (.result points location)])
    (step (run startup pre) (.click .pause)) ⟨hpause.1, hpause.2.1⟩ hmsg
  have h3 := paused_run (mid ++ [.message (.result points location)] ++ post)
    (step (run startup pre) (.click .pause)) ⟨hpause.1, hpause.2.1⟩ hall
  have e1 : ∀ rest : List Event, run startup (pre ++ [.click .pause] ++ rest)
      = run (step (run startup pre) (.click .pause)) rest := by
    intro rest
    rw [run_append, run_append]
    rfl
  have e2 : run startup (pre ++ [.click .pause] ++ mid ++ [.message (.result points location)])
      = workerMessage (.result points location)
          { run startup (pre ++ [.click .pause] ++ mid) with
            inFlight := (run startup (pre ++ [.click .pause] ++ mid)).inFlight - 1 } := by
    rw [run_append]
    rfl
  obtain ⟨m1, m2, m3, m4, m5, m6⟩ := workerMessage_result points location
    { run startup (pre ++ [.click .pause] ++ mid) with
      inFlight := (run startup (pre ++ [.click .pause] ++ mid)).inFlight - 1 }
  refine ⟨?_, ?_, ?_, ?_, ?_, ?_, ?_, ?_, ?_, ?_⟩
  · rw [e2]; exact m1
  · rw [e2]; exact m2
  · rw [e2]; exact m3
  · rw [e2]; exact m4
  · rw [e2]; exact m5
  · rw [e2]; exact m6
  · rw [List.append_assoc, e1]; exact h2.2.1
  · rw [List.append_assoc, List.append_assoc, e1, ← List.append_assoc]; exact h3.2.1
  · rw [List.append_assoc, List.append_assoc, e1, ← List.append_assoc]; exact h3.1
  · rw [List.append_assoc, List.append_assoc, e1, ← List.append_assoc, h3.2.2]
    exact hpause.2.2

/-- Witness of C7: pause is clicked at startup, while the first fetch is in
flight; the slider is moved, the result arrives, and then come a slider change,
a failure message, a timer event and another click on pause. -/
theorem pause_suppresses_rearm_witness :
    startup.inFlight = 1
    ∧ (∀ e ∈ [Event.slideRefresh 2], e.notPlay = true)
    ∧ (∀ e ∈ [Event.slideRefresh 3, .message .empty, .timer 0, .click .pause],
        e.notPlay = true)
    ∧ (run startup ([] ++ [.click .pause] ++ [.slideRefresh 2]
        ++ [.message (.result [(1, 2)] (some (3, 4)))])).points = [{ lat := 1, lng := 2 }]
    ∧ (run startup ([] ++ [.click .pause] ++ [.slideRefresh 2]
        ++ [.message (.result [(1, 2)] (some (3, 4)))])).timers = []
    ∧ (run startup ([] ++ [.click .pause] ++ [.slideRefresh 2]
        ++ [.message (.result [(1, 2)] (some (3, 4)))]
        ++ [.slideRefresh 3, .message .empty, .timer 0, .click .pause])).timers = []
    ∧ (run startup ([] ++ [.click .pause] ++ [.slideRefresh 2]
        ++ [.message (.result [(1, 2)] (some (3, 4)))]
        ++ [.slideRefresh 3, .message .empty, .timer 0, .click .pause])).requested
      = (run startup []).requested :=
  ⟨rfl, by decide, by decide,
    (pause_suppresses_rearm [] [.slideRefresh 2]
      [.slideRefresh 3, .message .empty, .timer 0, .click .pause] [(1, 2)] (some (3, 4))
      (by decide) (by decide)).1,
    (pause_suppresses_rearm [] [.slideRefresh 2]
      [.slideRefresh 3, .message .empty, .timer 0, .click .pause] [(1, 2)] (some (3, 4))
      (by decide) (by decide)).2.2.2.2.2.2.1,
    (pause_suppresses_rearm [] [.slideRefresh 2]
      [.slideRefresh 3, .message .empty, .timer 0, .click .pause] [(1, 2)] (some (3, 4))
      (by decide) (by decide)).2.2.2.2.2.2.2.1,
    (pause_suppresses_rearm [] [.slideRefresh 2]
      [.slideRefresh 3, .message .empty, .timer 0, .click .pause] [(1, 2)] (some (3, 4))
      (by decide) (by decide)).2.2.2.2.2.2.2.2.2⟩

end Scanner
